import Mathlib

namespace SheetRenamer

/-- Truncation applied to every proposed sheet name (the source slices each
new name down to its first 31 characters). -/
def sanitize (name : List Char) : List Char := name.take 31

/-- The replacer strips the matched reference with the Python strip method on
the quote character: remove every leading and trailing straight quote. -/
def stripQuotes (s : List Char) : List Char :=
  ((s.dropWhile (fun c => c = '\'')).reverse.dropWhile (fun c => c = '\'')).reverse

/-- Dictionary lookup on the association list that embeds `sheet_name_mapping`. -/
def lookup? (m : List (List Char × List Char)) (k : List Char) : Option (List Char) :=
  match m with
  | [] => none
  | p :: rest => if p.1 = k then some p.2 else lookup? rest k

/-- The replacer looks the stripped name up with the Python dict get method,
falling back to the name itself when absent. -/
def lookupD (m : List (List Char × List Char)) (k : List Char) : List Char :=
  (lookup? m k).getD k

/-- The replacer quoting test: the new name contains a space or one of the
special characters dash, plus, parentheses, brackets. -/
def needsQuote (s : List Char) : Bool :=
  s.contains ' ' || s.contains '-' || s.contains '+' || s.contains '(' ||
    s.contains ')' || s.contains '[' || s.contains ']'

/-- The replacer of the source: takes group 1 of a match (the possibly quoted
sheet name), strips quotes, maps it, re-quotes when needed, appends the bang. -/
def replacer (m : List (List Char × List Char)) (g : List Char) : List Char :=
  let sheet_name := stripQuotes g
  let new_sheet_name := lookupD m sheet_name
  (if needsQuote new_sheet_name then '\'' :: (new_sheet_name ++ ['\'']) else new_sheet_name) ++ ['!']

/-- After an alternation name has been consumed, the regex wants an optional
(greedy) closing quote and then the bang separator: first try to consume one
closing quote followed by a bang, else a bang directly. Returns whether the
closing quote was consumed and the remaining input. -/
def afterName (u : List Char) : Option (Bool × List Char) :=
  if u.take 2 = ['\'', '!'] then some (true, u.drop 2)
  else if u.take 1 = ['!'] then some (false, u.drop 1)
  else none

/-- The alternation `(n1|n2|...)` of the compiled pattern, tried at the current
position in source order, each alternative continued as in `afterName`;
on failure of the continuation the engine backtracks to the next alternative.
Returns (group-1 text minus any opening quote, rest after the `!`). -/
def tryAlt (names : List (List Char)) (s : List Char) : Option (List Char × List Char) :=
  match names with
  | [] => none
  | n :: rest =>
    if n.isPrefixOf s then
      match afterName (s.drop n.length) with
      | some (true, t) => some (n ++ ['\''], t)
      | some (false, t) => some (n, t)
      | none => tryAlt rest s
    else tryAlt rest s

/-- One attempt of the compiled pattern (optional quote, name alternation,
optional quote, bang) at the start of `s`: the greedy leading optional quote
first consumes a quote if present, falling back to the unquoted attempt if no
alternative completes. Returns group 1 and the rest after the bang. -/
def tryMatch (names : List (List Char)) (s : List Char) : Option (List Char × List Char) :=
  match s with
  | [] => tryAlt names []
  | c :: t =>
    if c = '\'' then
      match tryAlt names t with
      | some (g, r) => some ('\'' :: g, r)
      | none => tryAlt names (c :: t)
    else tryAlt names (c :: t)

/-- `regex.sub` scanning: leftmost match wins, scanning resumes after each
replaced span; fuelled for structural recursion (one unit per consumed prefix). -/
def subFuel (names : List (List Char)) (m : List (List Char × List Char)) :
    Nat → List Char → List Char
  | 0, s => s
  | _ + 1, [] => []
  | fuel + 1, c :: t =>
    match tryMatch names (c :: t) with
    | some (g, r) => replacer m g ++ subFuel names m fuel r
    | none => c :: subFuel names m fuel t

/-- The source function replace_sheet_names_in_formula: substitute every match
of the compiled reference pattern in the formula by the replacer output. -/
def replace_sheet_names_in_formula (names : List (List Char))
    (m : List (List Char × List Char)) (formula : List Char) : List Char :=
  subFuel names m formula.length formula

/-- Whether the compiled pattern matches at some position of `s`. -/
def hasMatch (names : List (List Char)) : List Char → Bool
  | [] => (tryMatch names []).isSome
  | c :: t => (tryMatch names (c :: t)).isSome || hasMatch names t

/-- A worksheet cell: the data type tag, the value (the formula text when the
tag is the formula tag f), and `extra` standing for every other cell attribute,
which the source never writes. -/
structure Cell where
  dataType : Char
  value : Option (List Char)
  extra : Nat
deriving DecidableEq

/-- A worksheet: a title and a grid of cells (`iter_rows` order). -/
structure Sheet where
  title : List Char
  rows : List (List Cell)
deriving DecidableEq

/-- A workbook: the ordered `wb.worksheets`. -/
structure Workbook where
  sheets : List Sheet
deriving DecidableEq

/-- The title-update loop of the source (each sheet title is reassigned to its
image under sheet_name_mapping): sheets are renamed in order; a missing key
raises KeyError, leaving the current and all later sheets untouched. Returns
the sheet list at loop exit and a success flag. -/
def updateSheetTitles (m : List (List Char × List Char)) : List Sheet → List Sheet × Bool
  | [] => ([], true)
  | s :: ss =>
    match lookup? m s.title with
    | some nn =>
      let r := updateSheetTitles m ss
      ({ s with title := nn } :: r.1, r.2)
    | none => (s :: ss, false)

/-- The formula-cell update of the source: only cells whose data type tag is
the formula tag f and whose value is truthy (neither None nor empty) get their
value overwritten with the rewritten formula. -/
def updateCell (names : List (List Char)) (m : List (List Char × List Char))
    (c : Cell) : Cell :=
  if c.dataType = 'f' then
    match c.value with
    | some f =>
      if f = [] then c
      else { c with value := some (replace_sheet_names_in_formula names m f) }
    | none => c
  else c

/-- The per-sheet `iter_rows` loop rewriting every formula cell. -/
def updateSheetFormulas (names : List (List Char)) (m : List (List Char × List Char))
    (s : Sheet) : Sheet :=
  { s with rows := s.rows.map (List.map (updateCell names m)) }

/-- `sheet_name_mapping` as built by the export handler: keys are the old titles,
values are the proposed names truncated by `new_name[:31]`. -/
def sanitizeMapping (m : List (List Char × List Char)) : List (List Char × List Char) :=
  m.map (fun p => (p.1, sanitize p.2))

/-- The alternation order of sheet_names_pattern: the keys of
sheet_name_mapping in insertion order, i.e. the workbook sheet order. -/
def compiledAlternation (m : List (List Char × List Char)) : List (List Char) :=
  m.map Prod.fst

/-- The whole export handler on one workbook: truncate the proposed names, rename
every sheet title (raising on a missing key), then, on success, rewrite every
formula cell with the pattern compiled from the mapping keys. -/
def renameWorkbook (m : List (List Char × List Char)) (wb : Workbook) : Workbook × Bool :=
  let m' := sanitizeMapping m
  let r := updateSheetTitles m' wb.sheets
  if r.2 then
    (⟨r.1.map (updateSheetFormulas (compiledAlternation m') m')⟩, true)
  else (⟨r.1⟩, false)

/-- Zero-padded two-digit decimal formatting of the sheet index, embedding the
Python format spec 02d used by the default new-name rule. -/
def format02 (n : Nat) : List Char :=
  if n < 10 then '0' :: Nat.toDigits 10 n else Nat.toDigits 10 n

/-- The default new-name rule of the UI loop: with a non-empty entered value
the proposed name is that value, a dot, the two-digit 1-based sheet index, a
space and the old name; with an empty one it is the old name; either way the
result is truncated to 31 characters. -/
def default_new_name (pfx : List Char) (idx : Nat) (old_name : List Char) : List Char :=
  (if pfx = [] then old_name else pfx ++ '.' :: (format02 (idx + 1) ++ ' ' :: old_name)).take 31

/-- The default-mapping loop over the sheet-name table: one `(old, default new)`
pair per sheet, indices 0-based as in `df.index`. -/
def build_default_mapping (names : List (List Char)) (pfx : List Char) :
    List (List Char × List Char) :=
  names.enum.map (fun p => (p.2, default_new_name pfx p.1 p.2))

theorem prefix_append_drop {n s : List Char} (h : n.isPrefixOf s) :
    n ++ s.drop n.length = s := by
  obtain ⟨t, rfl⟩ := List.isPrefixOf_iff_prefix.mp h
  simp

theorem afterName_span {u : List Char} {b : Bool} {t : List Char}
    (h : afterName u = some (b, t)) : u = (cond b ['\'', '!'] ['!']) ++ t := by
  unfold afterName at h
  split_ifs at h with h2 h1
  · simp only [Option.some.injEq, Prod.mk.injEq] at h
    obtain ⟨rfl, rfl⟩ := h
    rw [cond_true, ← h2]
    exact (List.take_append_drop 2 u).symm
  · simp only [Option.some.injEq, Prod.mk.injEq] at h
    obtain ⟨rfl, rfl⟩ := h
    rw [cond_false, ← h1]
    exact (List.take_append_drop 1 u).symm

theorem tryAlt_spec : ∀ (names : List (List Char)) (s g r : List Char),
    tryAlt names s = some (g, r) →
    s = g ++ '!' :: r ∧ ∃ n, n ∈ names ∧ (g = n ∨ g = n ++ ['\'']) := by
  intro names
  induction names with
  | nil => intro s g r h; simp [tryAlt] at h
  | cons n rest ih =>
    intro s g r h
    simp only [tryAlt] at h
    by_cases hp : n.isPrefixOf s
    · rw [if_pos hp] at h
      split at h
      · rename_i t heq
        simp only [Option.some.injEq, Prod.mk.injEq] at h
        obtain ⟨rfl, rfl⟩ := h
        have hd := afterName_span heq
        rw [cond_true] at hd
        constructor
        · rw [← prefix_append_drop hp, hd]; simp
        · exact ⟨n, by simp, Or.inr rfl⟩
      · rename_i t heq
        simp only [Option.some.injEq, Prod.mk.injEq] at h
        obtain ⟨rfl, rfl⟩ := h
        have hd := afterName_span heq
        rw [cond_false] at hd
        constructor
        · rw [← prefix_append_drop hp, hd]; simp
        · exact ⟨n, by simp, Or.inl rfl⟩
      · obtain ⟨hspan, n', hn', hg⟩ := ih s g r h
        exact ⟨hspan, n', by simp [hn'], hg⟩
    · rw [if_neg hp] at h
      obtain ⟨hspan, n', hn', hg⟩ := ih s g r h
      exact ⟨hspan, n', by simp [hn'], hg⟩

theorem tryMatch_spec : ∀ (names : List (List Char)) (s g r : List Char),
    tryMatch names s = some (g, r) →
    s = g ++ '!' :: r ∧ ∃ n, n ∈ names ∧
      (g = n ∨ g = '\'' :: n ∨ g = n ++ ['\''] ∨ g = '\'' :: (n ++ ['\''])) := by
  intro names s g r h
  match s with
  | [] =>
    simp only [tryMatch] at h
    obtain ⟨hspan, n, hn, hg⟩ := tryAlt_spec names [] g r h
    exact ⟨hspan, n, hn, by tauto⟩
  | c :: t =>
    simp only [tryMatch] at h
    by_cases hc : c = '\''
    · rw [if_pos hc] at h
      split at h
      · rename_i g' r' heq
        simp only [Option.some.injEq, Prod.mk.injEq] at h
        obtain ⟨rfl, rfl⟩ := h
        obtain ⟨hspan, n, hn, hg⟩ := tryAlt_spec names t g' r' heq
        subst hc
        refine ⟨by rw [hspan]; rfl, n, hn, ?_⟩
        rcases hg with rfl | rfl
        · exact Or.inr (Or.inl rfl)
        · exact Or.inr (Or.inr (Or.inr rfl))
      · obtain ⟨hspan, n, hn, hg⟩ := tryAlt_spec names (c :: t) g r h
        exact ⟨hspan, n, hn, by tauto⟩
    · rw [if_neg hc] at h
      obtain ⟨hspan, n, hn, hg⟩ := tryAlt_spec names (c :: t) g r h
      exact ⟨hspan, n, hn, by tauto⟩

theorem subFuel_eq_of_no_match (names : List (List Char)) (m : List (List Char × List Char)) :
    ∀ (s : List Char) (fuel : Nat), hasMatch names s = false → subFuel names m fuel s = s := by
  intro s
  induction s with
  | nil => intro fuel _; cases fuel <;> rfl
  | cons c t ih =>
    intro fuel h
    simp only [hasMatch, Bool.or_eq_false_iff] at h
    obtain ⟨h1, h2⟩ := h
    cases fuel with
    | zero => rfl
    | succ f =>
      cases hx : tryMatch names (c :: t) with
      | some v => rw [hx] at h1; simp at h1
      | none => simp only [subFuel, hx]; rw [ih f h2]

theorem lookup?_sanitizeMapping (m : List (List Char × List Char)) (k : List Char) :
    lookup? (sanitizeMapping m) k = (lookup? m k).map sanitize := by
  induction m with
  | nil => rfl
  | cons p ps ih =>
    simp only [sanitizeMapping, List.map_cons, lookup?]
    by_cases hk : p.1 = k
    · simp [hk]
    · simp only [hk, if_false, if_neg hk]
      exact ih

theorem updateSheetTitles_of_valid (m : List (List Char × List Char)) :
    ∀ sheets : List Sheet, (∀ s ∈ sheets, (lookup? m s.title).isSome = true) →
    updateSheetTitles m sheets =
      (sheets.map (fun s => { s with title := (lookup? m s.title).getD s.title }), true) := by
  intro sheets
  induction sheets with
  | nil => intro _; rfl
  | cons s ss ih =>
    intro h
    have hs := h s (by simp)
    obtain ⟨v, hv⟩ := Option.isSome_iff_exists.mp hs
    simp only [updateSheetTitles, hv]
    rw [ih (fun x hx => h x (by simp [hx]))]
    simp [hv]

theorem updateSheetTitles_fails_iff (m : List (List Char × List Char)) :
    ∀ sheets : List Sheet,
      (updateSheetTitles m sheets).2 = false ↔ ∃ s ∈ sheets, lookup? m s.title = none := by
  intro sheets
  induction sheets with
  | nil => simp [updateSheetTitles]
  | cons s ss ih =>
    cases hx : lookup? m s.title with
    | some v => simp [updateSheetTitles, hx, ih]
    | none => simp [updateSheetTitles, hx]

theorem updateSheetTitles_length (m : List (List Char × List Char)) :
    ∀ sheets : List Sheet, (updateSheetTitles m sheets).1.length = sheets.length := by
  intro sheets
  induction sheets with
  | nil => rfl
  | cons s ss ih =>
    cases hx : lookup? m s.title with
    | some v => simp [updateSheetTitles, hx, ih]
    | none => simp [updateSheetTitles, hx]

/-- Claim C1: for every workbook and every mapping whose keys cover the
workbook sheet titles, the title-update step of the export handler gives each
sheet, in order, the title `sanitize` of its mapped name (truncation to 31
characters), succeeds, and touches no other sheet attribute. -/
theorem rename_titles_spec (m : List (List Char × List Char)) (wb : Workbook)
    (h : ∀ s ∈ wb.sheets, (lookup? m s.title).isSome = true) :
    updateSheetTitles (sanitizeMapping m) wb.sheets =
      (wb.sheets.map (fun s =>
        { s with title := sanitize ((lookup? m s.title).getD s.title) }), true) := by
  have h' : ∀ s ∈ wb.sheets, (lookup? (sanitizeMapping m) s.title).isSome = true := by
    intro s hs
    rw [lookup?_sanitizeMapping]
    simpa using h s hs
  rw [updateSheetTitles_of_valid _ _ h']
  simp only [Prod.mk.injEq, and_true]
  apply List.map_congr_left
  intro s hs
  obtain ⟨v, hv⟩ := Option.isSome_iff_exists.mp (h s hs)
  rw [lookup?_sanitizeMapping, hv]
  rfl

/-- Witness for C1 at a concrete one-sheet workbook with an over-long proposed
name. -/
theorem rename_titles_spec_witness :
    updateSheetTitles
        (sanitizeMapping [("Alpha".data, "Alpha With A Quite Long New Name".data)])
        (Workbook.mk [⟨"Alpha".data, [[⟨'f', some "=Alpha!A1".data, 7⟩]]⟩]).sheets =
      ((Workbook.mk [⟨"Alpha".data, [[⟨'f', some "=Alpha!A1".data, 7⟩]]⟩]).sheets.map
        (fun s => { s with title := sanitize ((lookup? [("Alpha".data, "Alpha With A Quite Long New Name".data)] s.title).getD s.title) }), true) :=
  rename_titles_spec _ _ (by decide)

/-- Claim C2: every match of the compiled pattern spans exactly group 1 plus
the trailing bang, so substitution replaces that full span with the mapped
(re-quoted when needed) name plus a bang; text with no match anywhere is left
unchanged; the quoting condition is exactly space, dash, plus, parentheses or
brackets in the new name; and the two reference examples rewrite as the spec
states. -/
theorem rewrite_formula_spec :
    (∀ (names : List (List Char)) (s g r : List Char),
       tryMatch names s = some (g, r) → s = g ++ '!' :: r) ∧
    (∀ (names : List (List Char)) (m : List (List Char × List Char)) (s : List Char),
       hasMatch names s = false → replace_sheet_names_in_formula names m s = s) ∧
    (∀ nn : List Char, needsQuote nn = true ↔
       (' ' ∈ nn ∨ '-' ∈ nn ∨ '+' ∈ nn ∨ '(' ∈ nn ∨ ')' ∈ nn ∨ '[' ∈ nn ∨ ']' ∈ nn)) ∧
    replace_sheet_names_in_formula ["OldSheet".data]
        [("OldSheet".data, "New Sheet".data)] "OldSheet!A1".data
      = '\'' :: ("New Sheet".data ++ '\'' :: "!A1".data) ∧
    replace_sheet_names_in_formula ["OldSheet".data]
        [("OldSheet".data, "Sheet2".data)] "=SUM(OldSheet!A1:A2)+1".data
      = "=SUM(Sheet2!A1:A2)+1".data := by
  refine ⟨?_, ?_, ?_, by decide, by decide⟩
  · intro names s g r h
    exact (tryMatch_spec names s g r h).1
  · intro names m s h
    exact subFuel_eq_of_no_match names m s s.length h
  · intro nn
    simp [needsQuote, or_assoc]

/-- Witness for C2: a span instance and an unchanged no-match formula. -/
theorem rewrite_formula_spec_witness :
    "OldSheet!A1".data = "OldSheet".data ++ '!' :: "A1".data ∧
    replace_sheet_names_in_formula ["Zed".data] [] "abc".data = "abc".data :=
  ⟨rewrite_formula_spec.1 ["OldSheet".data] "OldSheet!A1".data "OldSheet".data
      "A1".data (by decide),
   rewrite_formula_spec.2.1 ["Zed".data] [] "abc".data (by decide)⟩

/-- Claim C3: sanitize is total, returns at most 31 characters, is the identity
on names of length at most 31, and otherwise truncates from the right (what it
returns is the 31-character prefix, the dropped tail being the rest). -/
theorem sanitize_spec (name : List Char) :
    (sanitize name).length ≤ 31 ∧
    (name.length ≤ 31 → sanitize name = name) ∧
    sanitize name ++ name.drop 31 = name := by
  refine ⟨?_, ?_, ?_⟩
  · simp only [sanitize, List.length_take]
    omega
  · intro h
    simp [sanitize, List.take_of_length_le h]
  · exact List.take_append_drop 31 name

/-- Witness for C3 at a short concrete name. -/
theorem sanitize_spec_witness : sanitize "Data".data = "Data".data :=
  (sanitize_spec "Data".data).2.1 (by decide)

/-- Counterexample to C4 as stated: the compiled pattern also matches a
reference carrying a quote on only one side — on the input consisting of a
quote, the name A and a bang, it matches with the lone opening quote inside
the matched group, which is neither the bare name nor the fully quoted name. -/
theorem matcher_one_sided_quote_counterexample :
    tryMatch [['A']] ['\'', 'A', '!'] = some (['\'', 'A'], []) ∧
    (['\'', 'A'] : List Char) ≠ ['A'] ∧
    (['\'', 'A'] : List Char) ≠ ['\'', 'A', '\''] := by decide

/-- Amended C4: every match of the compiled pattern is an occurrence of one of
the old names (exact string comparison) immediately followed by a bang, with an
optional quote on the left and an optional quote on the right independently —
both, either one alone, or neither may be present, as the four concrete
matches show. -/
theorem matcher_match_shape_spec :
    (∀ (names : List (List Char)) (s g r : List Char),
       tryMatch names s = some (g, r) →
       ∃ n, n ∈ names ∧ s = g ++ '!' :: r ∧
         (g = n ∨ g = '\'' :: n ∨ g = n ++ ['\''] ∨ g = '\'' :: (n ++ ['\'']))) ∧
    tryMatch [['A']] ['A', '!'] = some (['A'], []) ∧
    tryMatch [['A']] ['\'', 'A', '\'', '!'] = some (['\'', 'A', '\''], []) ∧
    tryMatch [['A']] ['\'', 'A', '!'] = some (['\'', 'A'], []) ∧
    tryMatch [['A']] ['A', '\'', '!'] = some (['A', '\''], []) := by
  refine ⟨?_, by decide, by decide, by decide, by decide⟩
  intro names s g r h
  obtain ⟨hspan, n, hn, hg⟩ := tryMatch_spec names s g r h
  exact ⟨n, hn, hspan, hg⟩

/-- Witness for the amended C4, instantiating the shape property at a concrete
match. -/
theorem matcher_match_shape_spec_witness :
    ∃ n, n ∈ [['A']] ∧ (['A', '!'] : List Char) = ['A'] ++ '!' :: [] ∧
      ((['A'] : List Char) = n ∨ (['A'] : List Char) = '\'' :: n ∨
       (['A'] : List Char) = n ++ ['\''] ∨ (['A'] : List Char) = '\'' :: (n ++ ['\''])) :=
  matcher_match_shape_spec.1 [['A']] ['A', '!'] ['A'] [] (by decide)

/-- Counterexample to C5 as stated: with sheets named Q1 and Q1 Data (in that
workbook order) the alternation of the compiled pattern lists the names in
mapping-key order, which is not sorted by descending length. -/
theorem alternation_unsorted_counterexample :
    compiledAlternation [("Q1".data, "Q1 R".data), ("Q1 Data".data, "Q1 D".data)]
      = ["Q1".data, "Q1 Data".data] ∧
    ¬ List.Sorted (fun a b : List Char => b.length ≤ a.length)
        (compiledAlternation [("Q1".data, "Q1 R".data), ("Q1 Data".data, "Q1 D".data)]) := by
  refine ⟨by decide, ?_⟩
  intro h
  simp only [compiledAlternation, List.map_cons, List.map_nil, List.sorted_cons] at h
  have h2 := h.1 ("Q1 Data".data) (by simp)
  revert h2
  decide

/-- Amended C5: the alternation lists the old names in mapping-key (sheet)
order with no length sort; nevertheless, when a shorter name that is a prefix
of a longer one cannot complete a full reference match, the engine backtracks
to the longer alternative, so the longer name still wins there, as the Q1
versus Q1 Data example shows. -/
theorem alternation_source_order_spec :
    compiledAlternation [("Q1".data, "Q1 R".data), ("Q1 Data".data, "Q1 D".data)]
      = ["Q1".data, "Q1 Data".data] ∧
    tryMatch ["Q1".data, "Q1 Data".data] "Q1 Data!A1".data
      = some ("Q1 Data".data, "A1".data) ∧
    replace_sheet_names_in_formula ["Q1".data, "Q1 Data".data]
        [("Q1".data, "First".data), ("Q1 Data".data, "Second".data)] "Q1 Data!A1".data
      = "Second!A1".data := by decide

/-- Counterexample to C6 as stated: with sheets A and B and a mapping holding
only A, the rename fails, but the first sheet has already been renamed to X —
a partially renamed workbook is produced. -/
theorem rename_mismatch_counterexample :
    renameWorkbook [("A".data, "X".data)] ⟨[⟨"A".data, []⟩, ⟨"B".data, []⟩]⟩ =
      (⟨[⟨"X".data, []⟩, ⟨"B".data, []⟩]⟩, false) ∧
    ("X".data : List Char) ≠ "A".data := by decide

/-- Amended C6: the title-update loop fails exactly when some sheet title is
missing from the mapping, and it fails at the first such sheet, after the
sheets before it have already had their titles updated, so a partially renamed
workbook can result (concrete two-sheet instance). -/
theorem rename_mismatch_spec :
    (∀ (m : List (List Char × List Char)) (sheets : List Sheet),
       (updateSheetTitles m sheets).2 = false ↔ ∃ s ∈ sheets, lookup? m s.title = none) ∧
    renameWorkbook [("A".data, "X".data)] ⟨[⟨"A".data, []⟩, ⟨"B".data, []⟩]⟩ =
      (⟨[⟨"X".data, []⟩, ⟨"B".data, []⟩]⟩, false) :=
  ⟨fun m sheets => updateSheetTitles_fails_iff m sheets, by decide⟩

/-- Counterexample to C7 as stated: with the identity mapping sending name A to
A, the formula made of two quotes, A and a bang rewrites to a strictly shorter
formula, and a second pass changes it again — the rewrite is not idempotent
even though every old name maps to itself. -/
theorem rewrite_idempotence_counterexample :
    replace_sheet_names_in_formula [['A']] [(['A'], ['A'])] ['\'', '\'', 'A', '!']
      = ['\'', 'A', '!'] ∧
    replace_sheet_names_in_formula [['A']] [(['A'], ['A'])]
        (replace_sheet_names_in_formula [['A']] [(['A'], ['A'])] ['\'', '\'', 'A', '!'])
      ≠ replace_sheet_names_in_formula [['A']] [(['A'], ['A'])] ['\'', '\'', 'A', '!'] := by
  decide

/-- Amended C7: with the identity mapping a second pass agrees with the first
on an ordinary formula, but not in general — a stray quote before a reference
is absorbed, so a second pass can differ even when every old name maps to
itself; and with the cyclic mapping (A to B, B to A) the second pass undoes
the first on a concrete formula, so the two passes differ. -/
theorem rewrite_twice_spec :
    replace_sheet_names_in_formula [['A']] [(['A'], ['A'])]
        (replace_sheet_names_in_formula [['A']] [(['A'], ['A'])] "=A!B2+A!C3".data)
      = replace_sheet_names_in_formula [['A']] [(['A'], ['A'])] "=A!B2+A!C3".data ∧
    replace_sheet_names_in_formula [['A'], ['B']] [(['A'], ['B']), (['B'], ['A'])]
        "A!A1".data = "B!A1".data ∧
    replace_sheet_names_in_formula [['A'], ['B']] [(['A'], ['B']), (['B'], ['A'])]
        "B!A1".data = "A!A1".data ∧
    ("A!A1".data : List Char) ≠ "B!A1".data ∧
    replace_sheet_names_in_formula [['A']] [(['A'], ['A'])]
        (replace_sheet_names_in_formula [['A']] [(['A'], ['A'])] ['\'', '\'', 'A', '!'])
      ≠ replace_sheet_names_in_formula [['A']] [(['A'], ['A'])] ['\'', '\'', 'A', '!'] := by
  decide

/-- Claim C8: with an empty entered value the default mapping is the identity
(for titles within the 31-character limit); with a non-empty one the proposed
name for the sheet at 1-based position i is the value, a dot, the two-digit i,
a space and the original name, truncated to 31 characters, as on the concrete
Q1 example. -/
theorem build_default_mapping_spec :
    (∀ names : List (List Char), (∀ n ∈ names, n.length ≤ 31) →
       build_default_mapping names [] = names.map (fun n => (n, n))) ∧
    build_default_mapping ["Data".data, "Summary".data] "Q1".data =
      [("Data".data, "Q1.01 Data".data), ("Summary".data, "Q1.02 Summary".data)] ∧
    (∀ (pfx : List Char) (idx : Nat) (n : List Char), pfx ≠ [] →
       default_new_name pfx idx n
         = (pfx ++ '.' :: (format02 (idx + 1) ++ ' ' :: n)).take 31) := by
  refine ⟨?_, by decide, ?_⟩
  · intro names h
    unfold build_default_mapping
    have hf : (fun p : Nat × List Char => (p.2, default_new_name [] p.1 p.2))
        = ((fun n : List Char => (n, n.take 31)) ∘ Prod.snd) := by
      funext p
      rfl
    rw [hf, ← List.map_map, List.enum_map_snd]
    apply List.map_congr_left
    intro n hn
    rw [List.take_of_length_le (h n hn)]
  · intro pfx idx n hp
    unfold default_new_name
    rw [if_neg hp]

/-- Witness for C8 at a concrete two-sheet title list. -/
theorem build_default_mapping_spec_witness :
    build_default_mapping ["A".data, "B".data] []
      = (["A".data, "B".data]).map (fun n => (n, n)) :=
  build_default_mapping_spec.1 ["A".data, "B".data] (by decide)

/-- Claim C9: the rename touches only sheet titles and the formula text of
formula cells — a cell whose data type is not the formula tag is unchanged,
every cell keeps its data type and its other attributes, the row and cell
structure of every sheet is preserved, a formula cell gets exactly the
rewritten formula, and the workbook keeps its number of sheets even across
failure. -/
theorem rename_frame_spec :
    (∀ (names : List (List Char)) (m : List (List Char × List Char)) (c : Cell),
       c.dataType ≠ 'f' → updateCell names m c = c) ∧
    (∀ (names : List (List Char)) (m : List (List Char × List Char)) (c : Cell),
       (updateCell names m c).dataType = c.dataType ∧
       (updateCell names m c).extra = c.extra) ∧
    (∀ (names : List (List Char)) (m : List (List Char × List Char)) (s : Sheet),
       (updateSheetFormulas names m s).title = s.title ∧
       (updateSheetFormulas names m s).rows.map List.length = s.rows.map List.length) ∧
    (∀ (names : List (List Char)) (m : List (List Char × List Char)) (c : Cell)
       (f : List Char), c.dataType = 'f' → c.value = some f → f ≠ [] →
       (updateCell names m c).value = some (replace_sheet_names_in_formula names m f)) ∧
    (∀ (m : List (List Char × List Char)) (wb : Workbook),
       (renameWorkbook m wb).1.sheets.length = wb.sheets.length) := by
  refine ⟨?_, ?_, ?_, ?_, ?_⟩
  · intro names m c h
    unfold updateCell
    rw [if_neg h]
  · intro names m c
    unfold updateCell
    by_cases hf : c.dataType = 'f'
    · rw [if_pos hf]
      cases c.value with
      | none => exact ⟨rfl, rfl⟩
      | some f =>
        by_cases he : f = []
        · simp [he]
        · simp [he]
    · rw [if_neg hf]
      exact ⟨rfl, rfl⟩
  · intro names m s
    refine ⟨rfl, ?_⟩
    unfold updateSheetFormulas
    simp [List.map_map, Function.comp]
  · intro names m c f hf hv hne
    unfold updateCell
    rw [if_pos hf, hv]
    simp [hne]
  · intro m wb
    unfold renameWorkbook
    by_cases hr : (updateSheetTitles (sanitizeMapping m) wb.sheets).2 = true
    · simp [hr, updateSheetTitles_length]
    · simp [hr, updateSheetTitles_length]

/-- Witness for C9: a plain-value cell is left untouched. -/
theorem rename_frame_spec_witness :
    updateCell [] [] (Cell.mk 'n' (some "x".data) 3) = Cell.mk 'n' (some "x".data) 3 :=
  rename_frame_spec.1 [] [] (Cell.mk 'n' (some "x".data) 3) (by decide)

/-- Claim C10: the matcher has no word boundary on the left — with the mapping
sending Data to D2, the formula referencing MyData is rewritten to reference
MyD2, the trailing occurrence of Data inside the longer identifier being
matched and replaced. -/
theorem no_left_boundary_spec :
    replace_sheet_names_in_formula ["Data".data] [("Data".data, "D2".data)]
      "=MyData!A1".data = "=MyD2!A1".data := by decide

end SheetRenamer
